import Mathlib

/-!
Verification of the MeshCoP `DatasetLocal` store
(`src/core/meshcop/dataset_local.cpp`).

A dataset is an ordered collection of TLV records; the store persists it
as a single blob per role (Active / Pending), optionally externalizing the
NetworkKey and Pskc secrets into a secure key store (ITS), and performs
role-specific normalization on every read (timestamp/delay stripping for
Active, delay-timer aging for Pending).

The collaborators (`Settings`, `Dataset` accessors, `Crypto::Storage`,
`TimerMilli`) are not part of the verified source file; they are modelled
from the spec's description of their interfaces (§6): the settings store
keeps at most one blob per role, the key store keeps raw bytes per
reference, and `TimerMilli::GetNow()` is passed in as an explicit `now`
parameter (a 32-bit millisecond counter).
-/

set_option autoImplicit false

/-- A TLV record: a tag and its value bytes.  Mirrors `MeshCoP::Tlv`
(the one-byte length field is implicit in `value.length`). -/
structure Tlv where
  tag : Nat
  value : List Nat
deriving DecidableEq, Repr

/-- Tag constants from `meshcop_tlvs.hpp` (MeshCoP TLV numbers). -/
def Tlv.kPskc : Nat := 4

def Tlv.kNetworkKey : Nat := 5

def Tlv.kActiveTimestamp : Nat := 14

def Tlv.kPendingTimestamp : Nat := 51

def Tlv.kDelayTimer : Nat := 52

/-- Modelled from the spec: a `Dataset` is an ordered TLV collection
(at most one TLV per tag in well-formed datasets); the persisted blob is
exactly its TLV encoding, so we identify a dataset with its TLV list. -/
abbrev Dataset := List Tlv

/-- `Dataset::GetTlv(aType)`: first TLV with the given tag, if any. -/
def getTlv (aTag : Nat) : Dataset → Option Tlv
  | [] => none
  | t :: ts => if t.tag = aTag then some t else getTlv aTag ts

/-- `Dataset::RemoveTlv(aType)`: drop the (first) TLV with the given tag. -/
def removeTlv (aTag : Nat) : Dataset → Dataset
  | [] => []
  | t :: ts => if t.tag = aTag then ts else t :: removeTlv aTag ts

/-- In-place update of the value of the (first) TLV with the given tag;
models writing through a pointer obtained from `GetTlv`. -/
def setTlvValue (aTag : Nat) (v : List Nat) : Dataset → Dataset
  | [] => []
  | t :: ts => if t.tag = aTag then { t with value := v } :: ts
               else t :: setTlvValue aTag v ts

/-- Byte size contributed by one TLV in the encoded blob (type + length +
value bytes). -/
def tlvSize (t : Tlv) : Nat := 2 + t.value.length

/-- `Dataset::GetSize()`: total encoded length `mLength`. -/
def getSize (d : Dataset) : Nat := (d.map tlvSize).sum

/-- Well-formedness invariant of a dataset: at most one TLV per tag. -/
def wfTags (d : Dataset) : Prop := (d.map Tlv.tag).Nodup

instance (d : Dataset) : Decidable (wfTags d) := by
  unfold wfTags; infer_instance

/-- Big-endian encoding of a `uint32_t` value (as used by
`DelayTimerTlv::SetDelayTimer`). -/
def encodeU32 (n : Nat) : List Nat :=
  [n / 2 ^ 24 % 256, n / 2 ^ 16 % 256, n / 2 ^ 8 % 256, n % 256]

/-- Big-endian decoding of a 4-byte value (`DelayTimerTlv::GetDelayTimer`). -/
def decodeU32 : List Nat → Nat
  | [a, b, c, d] => a % 256 * 2 ^ 24 + b % 256 * 2 ^ 16 + c % 256 * 2 ^ 8 + d % 256
  | _ => 0

/-- `DelayTimerTlv::GetDelayTimer` on a delay-timer TLV (value is its
4-byte big-endian payload). -/
def getDelayTimer (t : Tlv) : Nat := decodeU32 t.value

/-- Wraparound-safe unsigned 32-bit subtraction: `a - b` on `uint32_t`
(this is what `TimerMilli::GetNow() - mUpdateTime` computes). -/
def sub32 (a b : Nat) : Nat := (a % 2 ^ 32 + 2 ^ 32 - b % 2 ^ 32) % 2 ^ 32

/-- `NetworkKey::kSize = Pskc::kSize = 16`; a cleared key is 16 zero
bytes (`NetworkKey::Clear` / `Pskc::Clear`). -/
def kZeroKey : List Nat := List.replicate 16 0

/-- `Dataset::Type`: the store's role. -/
inductive DatasetType where
  | kActive
  | kPending
deriving DecidableEq, Repr

/-- The timestamp TLV tag matching a role (`ActiveTimestamp` for Active,
`PendingTimestamp` for Pending). -/
def timestampTag : DatasetType → Nat
  | .kActive => Tlv.kActiveTimestamp
  | .kPending => Tlv.kPendingTimestamp

/-- Modelled from the spec: `Dataset::GetTimestamp(aType, aTimestamp)`
succeeds exactly when the role's timestamp TLV is present, yielding its
value (the spec: the timestamp is used only for presence/comparison). -/
def getTimestamp (aType : DatasetType) (d : Dataset) : Option (List Nat) :=
  (getTlv (timestampTag aType) d).map Tlv.value

/-- `ot::Error` values observable from this module. -/
inductive Error where
  | kErrorNone
  | kErrorNotFound
  | kErrorFailed
deriving DecidableEq, Repr

/-- State of one `DatasetLocal` instance together with the slice of the
collaborators it exclusively owns: `settingsStored` is the role's
persisted blob in the Persistent Settings Store, and `itsNetworkKey` /
`itsPskc` are the role's two reserved Secure Key Store references. -/
structure LocalStore where
  mType : DatasetType
  mUpdateTime : Nat
  mTimestamp : List Nat
  mTimestampPresent : Bool
  mSaved : Bool
  settingsStored : Option Dataset
  itsNetworkKey : Option (List Nat)
  itsPskc : Option (List Nat)
deriving DecidableEq, Repr

/-- `DatasetLocal::DestroyItsKeys`: best-effort destruction of both of the
role's key references (destroying an absent key does not fail). -/
def DestroyItsKeys (s : LocalStore) : LocalStore :=
  { s with itsNetworkKey := none, itsPskc := none }

/-- `DatasetLocal::StoreItsKeys`: import the NetworkKey and Pskc TLV
values (when present) into the role's key references, then zero those TLV
values in the dataset copy.  Returns the updated store state and the
redacted dataset.  `ImportKey` failure asserts in the source; the
modelled key store accepts every import. -/
def StoreItsKeys (s : LocalStore) (d : Dataset) : LocalStore × Dataset :=
  let p1 : LocalStore × Dataset :=
    match getTlv Tlv.kNetworkKey d with
    | none => (s, d)
    | some t => ({ s with itsNetworkKey := some t.value },
                 setTlvValue Tlv.kNetworkKey kZeroKey d)
  match getTlv Tlv.kPskc p1.2 with
  | none => p1
  | some t => ({ p1.1 with itsPskc := some t.value },
               setTlvValue Tlv.kPskc kZeroKey p1.2)

/-- One block of `DatasetLocal::EmplaceItsKeys`: when the dataset has a
TLV with this tag, export the raw bytes held at the key reference back
into the TLV.  A missing reference is the source's fatal `OT_ASSERT`,
modelled as `none`. -/
def emplaceOne (aTag : Nat) (slot : Option (List Nat)) (d : Dataset) :
    Option Dataset :=
  match getTlv aTag d with
  | none => some d
  | some _ =>
    match slot with
    | none => none
    | some k => some (setTlvValue aTag k d)

/-- `DatasetLocal::EmplaceItsKeys`: the NetworkKey block followed by the
Pskc block. -/
def EmplaceItsKeys (s : LocalStore) (d : Dataset) : Option Dataset :=
  match emplaceOne Tlv.kNetworkKey s.itsNetworkKey d with
  | none => none
  | some d1 => emplaceOne Tlv.kPskc s.itsPskc d1

/-- `DatasetLocal::Clear`: destroy the key references (when the key-refs
feature is enabled), delete the persisted blob (best-effort), and reset
the cached timestamp, timestamp-presence and saved flags.  Returns no
error (`void`). -/
def Clear (keyRefs : Bool) (s : LocalStore) : LocalStore :=
  let s1 := if keyRefs then DestroyItsKeys s else s
  { s1 with settingsStored := none, mTimestamp := [],
            mTimestampPresent := false, mSaved := false }

/-- Outcome of `DatasetLocal::Read(Dataset &)`: success with the output
dataset, an error together with the output dataset the caller observes,
or the fatal assertion inside `EmplaceItsKeys`. -/
inductive ReadOutcome where
  | ok (aDataset : Dataset)
  | err (e : Error) (aDataset : Dataset)
  | assertFail
deriving DecidableEq, Repr

/-- `DatasetLocal::Read(Dataset &)`.  `keyRefs` is the
`OPENTHREAD_CONFIG_PLATFORM_KEY_REFERENCES_ENABLE` build flag and `now`
is `TimerMilli::GetNow()` (32-bit milliseconds).  On a settings-read
failure the caller's dataset length is reset to zero. -/
def Read (keyRefs : Bool) (now : Nat) (s : LocalStore) : ReadOutcome :=
  match s.settingsStored with
  | none => .err .kErrorNotFound []
  | some stored =>
    match (if keyRefs then EmplaceItsKeys s stored else some stored) with
    | none => .assertFail
    | some tlvs =>
      match s.mType with
      | .kActive =>
        .ok (removeTlv Tlv.kDelayTimer (removeTlv Tlv.kPendingTimestamp tlvs))
      | .kPending =>
        match getTlv Tlv.kDelayTimer tlvs with
        | none => .ok tlvs
        | some dt =>
          let elapsed := sub32 now s.mUpdateTime
          let newDelay :=
            if getDelayTimer dt > elapsed then getDelayTimer dt - elapsed else 0
          .ok (setTlvValue Tlv.kDelayTimer (encodeU32 newDelay) tlvs)

/-- `DatasetLocal::Restore`: set timestamp-presence to false (fail-safe
default), read, and on success set the saved flag and re-derive the
cached timestamp from the dataset that was read. -/
def Restore (keyRefs : Bool) (now : Nat) (s : LocalStore) :
    ReadOutcome × LocalStore :=
  let s1 := { s with mTimestampPresent := false }
  match Read keyRefs now s1 with
  | .ok d =>
    match getTimestamp s1.mType d with
    | some ts =>
      (.ok d, { s1 with mSaved := true, mTimestampPresent := true,
                        mTimestamp := ts })
    | none => (.ok d, { s1 with mSaved := true, mTimestampPresent := false })
  | r => (r, s1)

/-- Lines 211-212 of the source: refresh the cached timestamp fields from
the caller's (pre-redaction) dataset and stamp the update time.  Runs on
every `Save` path that does not exit early with an error. -/
def finishSave (now : Nat) (s : LocalStore) (aDataset : Dataset) : LocalStore :=
  match getTimestamp s.mType aDataset with
  | some ts => { s with mTimestampPresent := true, mTimestamp := ts,
                        mUpdateTime := now }
  | none => { s with mTimestampPresent := false, mUpdateTime := now }

/-- `DatasetLocal::Save(const Dataset &)`.  `saveOk` models whether the
Persistent Settings Store accepts the blob write
(`Settings::SaveOperationalDataset`); the best-effort delete of the
empty-dataset branch is `IgnoreError`d and modelled as effective.  When
`keyRefs` is enabled the secret TLVs are redacted on a local copy
(`dataset.Set(GetType(), aDataset)`), never on the caller's argument. -/
def Save (keyRefs saveOk : Bool) (now : Nat) (s : LocalStore)
    (aDataset : Dataset) : Error × LocalStore :=
  let s1 := if keyRefs then DestroyItsKeys s else s
  if getSize aDataset = 0 then
    (.kErrorNone,
     finishSave now { s1 with settingsStored := none, mSaved := false } aDataset)
  else
    if keyRefs then
      let p := StoreItsKeys s1 aDataset
      if saveOk then
        (.kErrorNone,
         finishSave now { p.1 with settingsStored := some p.2, mSaved := true }
           aDataset)
      else
        (.kErrorFailed, p.1)
    else
      if saveOk then
        (.kErrorNone,
         finishSave now { s1 with settingsStored := some aDataset, mSaved := true }
           aDataset)
      else
        (.kErrorFailed, s1)

/-- `DatasetLocal::Read(Dataset::Info &)`: clears the caller's info
structure first, reads into a temporary dataset, and converts on success
only.  The `Info` type with its `Clear` result and `ConvertTo` function
is the out-of-scope TLV codec, kept abstract.  `none` models the fatal
assertion propagating out of the core read. -/
def ReadInfoOv (Info : Type) (clearedInfo : Info) (convertTo : Dataset → Info)
    (keyRefs : Bool) (now : Nat) (s : LocalStore) : Option (Error × Info) :=
  match Read keyRefs now s with
  | .ok d => some (.kErrorNone, convertTo d)
  | .err e _ => some (e, clearedInfo)
  | .assertFail => none

/-- `DatasetLocal::Read(otOperationalDatasetTlvs &)`: zeroes the caller's
buffer (`memset`), reads into a temporary dataset, and copies its TLV
bytes on success only (`ConvertTo` on a TLV buffer is the identity on
the TLV content). -/
def ReadTlvsOv (keyRefs : Bool) (now : Nat) (s : LocalStore) :
    Option (Error × Dataset) :=
  match Read keyRefs now s with
  | .ok d => some (.kErrorNone, d)
  | .err e _ => some (e, [])
  | .assertFail => none

/-! ### Concrete sample inputs used to instantiate the theorems -/

/-- A sample network-key TLV (16-byte value). -/
def nkSample : Tlv := ⟨Tlv.kNetworkKey, List.replicate 16 9⟩

/-- A sample Pskc TLV (16-byte value). -/
def pkSample : Tlv := ⟨Tlv.kPskc, List.replicate 16 7⟩

/-- A sample active-timestamp TLV (8-byte value). -/
def atSample : Tlv := ⟨Tlv.kActiveTimestamp, [0, 0, 0, 0, 0, 0, 0, 1]⟩

/-- A sample pending-timestamp TLV (8-byte value). -/
def ptSample : Tlv := ⟨Tlv.kPendingTimestamp, [0, 0, 0, 0, 0, 0, 0, 2]⟩

/-- A sample delay-timer TLV holding 5000 ms. -/
def dtSample : Tlv := ⟨Tlv.kDelayTimer, encodeU32 5000⟩

/-- A freshly initialized Pending store (constructor state) whose
persisted blob holds a pending timestamp and a delay timer saved at
monotonic time 100. -/
def pendingSample : LocalStore :=
  { mType := .kPending, mUpdateTime := 100, mTimestamp := [],
    mTimestampPresent := false, mSaved := false,
    settingsStored := some [ptSample, dtSample],
    itsNetworkKey := none, itsPskc := none }

/-- An Active store whose persisted blob still carries pending-activation
metadata next to an active timestamp. -/
def activeSample : LocalStore :=
  { mType := .kActive, mUpdateTime := 0, mTimestamp := [],
    mTimestampPresent := false, mSaved := false,
    settingsStored := some [atSample, ptSample, dtSample],
    itsNetworkKey := none, itsPskc := none }

/-- A store that believes it holds a saved dataset while the settings
store has none (e.g. external storage loss after a successful save). -/
def orphanSample : LocalStore :=
  { mType := .kActive, mUpdateTime := 0, mTimestamp := [],
    mTimestampPresent := true, mSaved := true, settingsStored := none,
    itsNetworkKey := none, itsPskc := none }

/-- An empty Active store with the key-refs feature available. -/
def emptySample : LocalStore :=
  { mType := .kActive, mUpdateTime := 0, mTimestamp := [],
    mTimestampPresent := false, mSaved := false, settingsStored := none,
    itsNetworkKey := none, itsPskc := none }

/-! ### Helper lemmas about the TLV-list operations -/

theorem getTlv_tag_eq {a : Nat} {d : Dataset} {t : Tlv}
    (h : getTlv a d = some t) : t.tag = a := by
  induction d with
  | nil => simp [getTlv] at h
  | cons u us ih =>
    by_cases hu : u.tag = a
    · simp [getTlv, hu] at h; simp [← h, hu]
    · simp [getTlv, hu] at h; exact ih h

theorem getTlv_setTlvValue_self (a : Nat) (v : List Nat) (d : Dataset) :
    getTlv a (setTlvValue a v d)
      = (getTlv a d).map (fun t => { t with value := v }) := by
  induction d with
  | nil => simp [getTlv, setTlvValue]
  | cons u us ih =>
    by_cases hu : u.tag = a
    · simp [getTlv, setTlvValue, hu]
    · simp [getTlv, setTlvValue, hu, ih]

theorem getTlv_setTlvValue_ne {a b : Nat} (h : a ≠ b) (v : List Nat)
    (d : Dataset) : getTlv a (setTlvValue b v d) = getTlv a d := by
  induction d with
  | nil => rfl
  | cons u us ih =>
    simp only [setTlvValue]
    by_cases hu : u.tag = b
    · rw [if_pos hu]
      have ha : ¬ u.tag = a := fun e => h (e.symm.trans hu)
      simp only [getTlv]
      rw [if_neg ha, if_neg ha]
    · rw [if_neg hu]
      simp only [getTlv]
      by_cases ha : u.tag = a
      · rw [if_pos ha, if_pos ha]
      · rw [if_neg ha, if_neg ha, ih]

theorem getTlv_removeTlv_ne {a b : Nat} (h : a ≠ b) (d : Dataset) :
    getTlv a (removeTlv b d) = getTlv a d := by
  induction d with
  | nil => rfl
  | cons u us ih =>
    simp only [removeTlv]
    by_cases hu : u.tag = b
    · rw [if_pos hu]
      have ha : ¬ u.tag = a := fun e => h (e.symm.trans hu)
      conv_rhs => simp only [getTlv]
      rw [if_neg ha]
    · rw [if_neg hu]
      simp only [getTlv]
      by_cases ha : u.tag = a
      · rw [if_pos ha, if_pos ha]
      · rw [if_neg ha, if_neg ha, ih]

theorem getTlv_eq_none_of_not_mem {a : Nat} {d : Dataset}
    (h : a ∉ d.map Tlv.tag) : getTlv a d = none := by
  induction d with
  | nil => simp [getTlv]
  | cons u us ih =>
    simp only [List.map_cons, List.mem_cons] at h
    push_neg at h
    have hu : ¬ u.tag = a := fun e => h.1 e.symm
    simp [getTlv, hu, ih h.2]

theorem map_tag_removeTlv_sublist (a : Nat) (d : Dataset) :
    ((removeTlv a d).map Tlv.tag).Sublist (d.map Tlv.tag) := by
  induction d with
  | nil => simp [removeTlv]
  | cons u us ih =>
    by_cases hu : u.tag = a
    · simp only [removeTlv, hu, if_pos rfl, List.map_cons]
      exact (List.sublist_cons_self _ _)
    · simp only [removeTlv, hu, if_neg hu, List.map_cons]
      exact ih.cons₂ _

theorem getTlv_removeTlv_self {a : Nat} {d : Dataset} (hwf : wfTags d) :
    getTlv a (removeTlv a d) = none := by
  induction d with
  | nil => simp [getTlv, removeTlv]
  | cons u us ih =>
    simp only [wfTags, List.map_cons, List.nodup_cons] at hwf
    by_cases hu : u.tag = a
    · simp only [removeTlv, if_pos hu]
      exact getTlv_eq_none_of_not_mem (hu ▸ hwf.1)
    · simp only [removeTlv, if_neg hu, getTlv, if_neg hu]
      exact ih hwf.2

theorem map_tag_setTlvValue (a : Nat) (v : List Nat) (d : Dataset) :
    (setTlvValue a v d).map Tlv.tag = d.map Tlv.tag := by
  induction d with
  | nil => simp [setTlvValue]
  | cons u us ih =>
    by_cases hu : u.tag = a
    · simp [setTlvValue, hu]
    · simp [setTlvValue, hu, ih]

theorem wfTags_setTlvValue {d : Dataset} (a : Nat) (v : List Nat)
    (hwf : wfTags d) : wfTags (setTlvValue a v d) := by
  unfold wfTags at *
  rw [map_tag_setTlvValue]
  exact hwf

theorem removeTlv_of_getTlv_none {a : Nat} {d : Dataset}
    (h : getTlv a d = none) : removeTlv a d = d := by
  induction d with
  | nil => simp [removeTlv]
  | cons u us ih =>
    by_cases hu : u.tag = a
    · simp [getTlv, hu] at h
    · simp only [getTlv, if_neg hu] at h
      simp [removeTlv, hu, ih h]

theorem setTlvValue_of_value_eq {a : Nat} {d : Dataset} {t : Tlv}
    (h : getTlv a d = some t) : setTlvValue a t.value d = d := by
  induction d with
  | nil => simp [getTlv] at h
  | cons u us ih =>
    by_cases hu : u.tag = a
    · simp only [getTlv, if_pos hu] at h
      injection h with h
      subst h
      simp only [setTlvValue, if_pos hu]
    · simp only [getTlv, if_neg hu] at h
      simp [setTlvValue, hu, ih h]

theorem value_of_mem_setTlvValue {a : Nat} {v : List Nat} {d : Dataset}
    {u : Tlv} (hwf : wfTags d) (hm : u ∈ setTlvValue a v d)
    (ht : u.tag = a) : u.value = v := by
  induction d with
  | nil => simp [setTlvValue] at hm
  | cons w ws ih =>
    simp only [wfTags, List.map_cons, List.nodup_cons] at hwf
    by_cases hw : w.tag = a
    · simp only [setTlvValue, if_pos hw, List.mem_cons] at hm
      rcases hm with hm | hm
      · simp [hm]
      · exact absurd (ht ▸ List.mem_map_of_mem Tlv.tag hm) (hw ▸ hwf.1)
    · simp only [setTlvValue, if_neg hw, List.mem_cons] at hm
      rcases hm with hm | hm
      · exact absurd (hm ▸ ht) hw
      · exact ih hwf.2 hm

theorem mem_of_mem_setTlvValue_ne {a : Nat} {v : List Nat} {d : Dataset}
    {u : Tlv} (hm : u ∈ setTlvValue a v d) (ht : u.tag ≠ a) : u ∈ d := by
  induction d with
  | nil => simp [setTlvValue] at hm
  | cons w ws ih =>
    by_cases hw : w.tag = a
    · simp only [setTlvValue, if_pos hw, List.mem_cons] at hm
      rcases hm with hm | hm
      · exact absurd (by simp [hm, hw]) ht
      · exact List.mem_cons_of_mem _ hm
    · simp only [setTlvValue, if_neg hw, List.mem_cons] at hm
      rcases hm with hm | hm
      · exact hm ▸ List.mem_cons_self _ _
      · exact List.mem_cons_of_mem _ (ih hm)

theorem decodeU32_encodeU32 {n : Nat} (h : n < 2 ^ 32) :
    decodeU32 (encodeU32 n) = n := by
  simp only [encodeU32, decodeU32]
  omega

theorem sub32_self (a : Nat) : sub32 a a = 0 := by
  simp only [sub32]
  omega

theorem mem_of_getTlv {a : Nat} {d : Dataset} {t : Tlv}
    (h : getTlv a d = some t) : t ∈ d := by
  induction d with
  | nil => simp [getTlv] at h
  | cons u us ih =>
    by_cases hu : u.tag = a
    · simp only [getTlv, if_pos hu] at h
      injection h with h
      exact h ▸ List.mem_cons_self _ _
    · simp only [getTlv, if_neg hu] at h
      exact List.mem_cons_of_mem _ (ih h)

theorem getSize_eq_zero_iff {d : Dataset} : getSize d = 0 ↔ d = [] := by
  cases d with
  | nil => simp [getSize]
  | cons t ts => simp [getSize, tlvSize]

theorem wfTags_removeTlv {d : Dataset} (a : Nat) (hwf : wfTags d) :
    wfTags (removeTlv a d) :=
  (map_tag_removeTlv_sublist a d).nodup hwf

theorem map_tag_emplaceOne {a : Nat} {slot : Option (List Nat)}
    {d d1 : Dataset} (h : emplaceOne a slot d = some d1) :
    d1.map Tlv.tag = d.map Tlv.tag := by
  unfold emplaceOne at h
  rcases h1 : getTlv a d with _ | t
  · rw [h1] at h
    injection h with h
    rw [h]
  · rw [h1] at h
    rcases slot with _ | k
    · exact absurd h (by simp)
    · injection h with h
      rw [← h, map_tag_setTlvValue]

theorem map_tag_EmplaceItsKeys {s : LocalStore} {d d2 : Dataset}
    (h : EmplaceItsKeys s d = some d2) : d2.map Tlv.tag = d.map Tlv.tag := by
  unfold EmplaceItsKeys at h
  rcases h1 : emplaceOne Tlv.kNetworkKey s.itsNetworkKey d with _ | d1
  · rw [h1] at h
    exact absurd h (by simp)
  · rw [h1] at h
    exact (map_tag_emplaceOne h).trans (map_tag_emplaceOne h1)

theorem read_settings_none {s : LocalStore} (keyRefs : Bool) (now : Nat)
    (h : s.settingsStored = none) :
    Read keyRefs now s = .err .kErrorNotFound [] := by
  unfold Read
  rw [h]

theorem finishSave_fields (now : Nat) (s : LocalStore) (d : Dataset) :
    (finishSave now s d).mType = s.mType ∧
    (finishSave now s d).settingsStored = s.settingsStored ∧
    (finishSave now s d).mUpdateTime = now ∧
    (finishSave now s d).mSaved = s.mSaved ∧
    (finishSave now s d).itsNetworkKey = s.itsNetworkKey ∧
    (finishSave now s d).itsPskc = s.itsPskc := by
  rcases hts : getTimestamp s.mType d with _ | ts <;>
    simp [finishSave, hts]

theorem finishSave_timestamp (now : Nat) (s : LocalStore) (d : Dataset) :
    (finishSave now s d).mTimestampPresent = (getTimestamp s.mType d).isSome ∧
    (∀ ts, getTimestamp s.mType d = some ts →
      (finishSave now s d).mTimestamp = ts) := by
  rcases hts : getTimestamp s.mType d with _ | ts <;>
    simp [finishSave, hts]

theorem StoreItsKeys_fst_fields (s : LocalStore) (d : Dataset) :
    (StoreItsKeys s d).1.mType = s.mType ∧
    (StoreItsKeys s d).1.mUpdateTime = s.mUpdateTime ∧
    (StoreItsKeys s d).1.mTimestamp = s.mTimestamp ∧
    (StoreItsKeys s d).1.mTimestampPresent = s.mTimestampPresent ∧
    (StoreItsKeys s d).1.mSaved = s.mSaved ∧
    (StoreItsKeys s d).1.settingsStored = s.settingsStored := by
  unfold StoreItsKeys
  rcases h1 : getTlv Tlv.kNetworkKey d with _ | t <;> simp only [h1] <;>
    rcases h2 : getTlv Tlv.kPskc _ with _ | u <;> simp [h2]

/-! ### Claim theorems -/

/-- C8: `Clear` returns no error (it is a total `void` function, with the
blob delete and key destruction best-effort), it is idempotent, and after
any call the saved flag and the timestamp-presence flag are false. -/
theorem clear_idempotent_and_resets (keyRefs : Bool) (s : LocalStore) :
    Clear keyRefs (Clear keyRefs s) = Clear keyRefs s ∧
    (Clear keyRefs s).mSaved = false ∧
    (Clear keyRefs s).mTimestampPresent = false := by
  cases keyRefs <;> simp [Clear, DestroyItsKeys]

/-- C5: saving an empty dataset reports success (the blob delete is
best-effort and its error ignored), leaves the saved flag false, and a
subsequent `Read` returns `kErrorNotFound` with a zero-length output. -/
theorem save_empty_then_read_not_found (keyRefs saveOk : Bool)
    (now now2 : Nat) (s : LocalStore) (d : Dataset) (h : getSize d = 0) :
    (Save keyRefs saveOk now s d).1 = .kErrorNone ∧
    (Save keyRefs saveOk now s d).2.mSaved = false ∧
    Read keyRefs now2 (Save keyRefs saveOk now s d).2
      = .err .kErrorNotFound [] := by
  unfold Save
  rw [if_pos h]
  refine ⟨rfl, ?_, ?_⟩
  · exact (finishSave_fields now _ d).2.2.2.1
  · exact read_settings_none keyRefs now2 (finishSave_fields now _ d).2.1

theorem save_empty_then_read_not_found_witness :
    getSize ([] : Dataset) = 0 ∧
    ((Save false true 7 pendingSample []).1 = .kErrorNone ∧
     (Save false true 7 pendingSample []).2.mSaved = false ∧
     Read false 9 (Save false true 7 pendingSample []).2
       = .err .kErrorNotFound []) :=
  ⟨by decide, save_empty_then_read_not_found false true 7 9 pendingSample []
    (by decide)⟩

/-- C6 counterexample: for a prior state whose saved flag is true while
the settings store has no blob, a failed `Restore` leaves the saved flag
true, refuting the claim that it is false for every prior state. -/
theorem restore_fail_keeps_saved_cex :
    (Restore false 0 orphanSample).1 = .err .kErrorNotFound [] ∧
    (Restore false 0 orphanSample).2.mSaved = true := by decide

/-- C6 (amended): when the underlying read fails, `Restore` propagates
the error, sets the timestamp-presence flag to false, and leaves every
other field of the store's state - in particular the saved flag -
unchanged from its prior value. -/
theorem restore_fail_state (keyRefs : Bool) (now : Nat) (s : LocalStore)
    (e : Error) (out : Dataset)
    (h : (Restore keyRefs now s).1 = .err e out) :
    (Restore keyRefs now s).2 = { s with mTimestampPresent := false } := by
  rcases hr : Read keyRefs now { s with mTimestampPresent := false } with
    d | ⟨e1, o1⟩ | _
  · simp only [Restore, hr] at h
    rcases hts : getTimestamp s.mType d with _ | ts <;> simp [hts] at h
  · simp only [Restore, hr]
  · simp only [Restore, hr] at h
    exact absurd h (by simp)

theorem restore_fail_state_witness :
    (Restore false 0 orphanSample).1 = .err .kErrorNotFound [] ∧
    (Restore false 0 orphanSample).2
      = { orphanSample with mTimestampPresent := false } :=
  ⟨by decide, restore_fail_state false 0 orphanSample .kErrorNotFound []
    (by decide)⟩

/-- C7: after a successful `Restore`, the saved flag is true and the
timestamp-presence flag equals the presence of the role's timestamp TLV
in the restored dataset. -/
theorem restore_success_sets_flags (keyRefs : Bool) (now : Nat)
    (s : LocalStore) (d : Dataset)
    (h : (Restore keyRefs now s).1 = .ok d) :
    (Restore keyRefs now s).2.mSaved = true ∧
    (Restore keyRefs now s).2.mTimestampPresent
      = (getTimestamp s.mType d).isSome := by
  rcases hr : Read keyRefs now { s with mTimestampPresent := false } with
    d0 | ⟨e1, o1⟩ | _
  · simp only [Restore, hr] at h ⊢
    rcases hts : getTimestamp s.mType d0 with _ | ts <;>
      simp only [hts] at h ⊢ <;> injection h with h <;> subst h <;>
      simp [hts]
  · simp only [Restore, hr] at h
    exact absurd h (by simp)
  · simp only [Restore, hr] at h
    exact absurd h (by simp)

theorem restore_success_sets_flags_witness :
    (Restore false 5 activeSample).1
      = .ok [atSample] ∧
    ((Restore false 5 activeSample).2.mSaved = true ∧
     (Restore false 5 activeSample).2.mTimestampPresent
       = (getTimestamp activeSample.mType [atSample]).isSome) :=
  ⟨by decide, restore_success_sets_flags false 5 activeSample [atSample]
    (by decide)⟩

/-- C9: a failed read never exposes stale or partial data: with no
persisted blob, the core `Read` returns `kErrorNotFound` with the output
dataset reset to length zero, and the info-struct and TLV-buffer
overloads return exactly their cleared output structures. -/
theorem read_fail_no_stale_output (Info : Type) (clearedInfo : Info)
    (convertTo : Dataset → Info) (keyRefs : Bool) (now : Nat)
    (s : LocalStore) (h : s.settingsStored = none) :
    Read keyRefs now s = .err .kErrorNotFound [] ∧
    ReadInfoOv Info clearedInfo convertTo keyRefs now s
      = some (.kErrorNotFound, clearedInfo) ∧
    ReadTlvsOv keyRefs now s = some (.kErrorNotFound, []) := by
  have hr := read_settings_none (s := s) keyRefs now h
  exact ⟨hr, by simp [ReadInfoOv, hr], by simp [ReadTlvsOv, hr]⟩

theorem read_fail_no_stale_output_witness :
    emptySample.settingsStored = none ∧
    (Read true 3 emptySample = .err .kErrorNotFound [] ∧
     ReadInfoOv Nat 0 (fun d => d.length + 1) true 3 emptySample
       = some (.kErrorNotFound, 0) ∧
     ReadTlvsOv true 3 emptySample = some (.kErrorNotFound, [])) :=
  ⟨by decide, read_fail_no_stale_output Nat 0 (fun d => d.length + 1) true 3
    emptySample (by decide)⟩

theorem Read_eval_no_keyrefs {s : LocalStore} {stored : Dataset} (now : Nat)
    (h2 : s.settingsStored = some stored) :
    Read false now s =
      (match s.mType with
       | .kActive =>
         .ok (removeTlv Tlv.kDelayTimer (removeTlv Tlv.kPendingTimestamp stored))
       | .kPending =>
         match getTlv Tlv.kDelayTimer stored with
         | none => .ok stored
         | some dt =>
           .ok (setTlvValue Tlv.kDelayTimer
             (encodeU32 (if getDelayTimer dt > sub32 now s.mUpdateTime
                then getDelayTimer dt - sub32 now s.mUpdateTime else 0))
             stored)) := by
  unfold Read
  rw [h2]
  rfl

theorem strip_both_of_wf {tl : Dataset} (hwf : wfTags tl) :
    getTlv Tlv.kPendingTimestamp
      (removeTlv Tlv.kDelayTimer (removeTlv Tlv.kPendingTimestamp tl)) = none ∧
    getTlv Tlv.kDelayTimer
      (removeTlv Tlv.kDelayTimer (removeTlv Tlv.kPendingTimestamp tl)) = none := by
  constructor
  · rw [getTlv_removeTlv_ne (by decide)]
    exact getTlv_removeTlv_self hwf
  · exact getTlv_removeTlv_self (wfTags_removeTlv _ hwf)

/-- C1: for a Pending store whose persisted blob carries a DelayTimer TLV
with stored value T, `Read` at monotonic time t1 succeeds and returns the
dataset with the delay timer rewritten to `T - elapsed` (truncated at 0),
where `elapsed` is the wraparound-safe unsigned 32-bit difference
`t1 - mUpdateTime`; the new value never exceeds T and never wraps. -/
theorem read_pending_delay_aging (t1 : Nat) (s : LocalStore)
    (stored : Dataset) (T : Nat)
    (h1 : s.mType = .kPending)
    (h2 : s.settingsStored = some stored)
    (h3 : getTlv Tlv.kDelayTimer stored = some ⟨Tlv.kDelayTimer, encodeU32 T⟩)
    (h4 : T < 2 ^ 32) :
    ∃ d, Read false t1 s = .ok d ∧
      getTlv Tlv.kDelayTimer d
        = some ⟨Tlv.kDelayTimer, encodeU32 (T - sub32 t1 s.mUpdateTime)⟩ ∧
      T - sub32 t1 s.mUpdateTime ≤ T ∧
      T - sub32 t1 s.mUpdateTime < 2 ^ 32 := by
  have hr := Read_eval_no_keyrefs t1 h2
  simp only [h1, h3] at hr
  have hdec : getDelayTimer ⟨Tlv.kDelayTimer, encodeU32 T⟩ = T := by
    simp [getDelayTimer, decodeU32_encodeU32 h4]
  rw [hdec] at hr
  have hite : (if T > sub32 t1 s.mUpdateTime
      then T - sub32 t1 s.mUpdateTime else 0) = T - sub32 t1 s.mUpdateTime := by
    split <;> omega
  rw [hite] at hr
  refine ⟨_, hr, ?_, Nat.sub_le _ _, lt_of_le_of_lt (Nat.sub_le _ _) h4⟩
  rw [getTlv_setTlvValue_self, h3]
  rfl

theorem read_pending_delay_aging_witness :
    pendingSample.mType = .kPending ∧
    pendingSample.settingsStored = some [ptSample, dtSample] ∧
    getTlv Tlv.kDelayTimer [ptSample, dtSample]
      = some ⟨Tlv.kDelayTimer, encodeU32 5000⟩ ∧
    5000 < 2 ^ 32 ∧
    (∃ d, Read false 1100 pendingSample = .ok d ∧
      getTlv Tlv.kDelayTimer d
        = some ⟨Tlv.kDelayTimer,
                encodeU32 (5000 - sub32 1100 pendingSample.mUpdateTime)⟩ ∧
      5000 - sub32 1100 pendingSample.mUpdateTime ≤ 5000 ∧
      5000 - sub32 1100 pendingSample.mUpdateTime < 2 ^ 32) :=
  ⟨by decide, by decide, by decide, by decide,
   read_pending_delay_aging 1100 pendingSample [ptSample, dtSample] 5000
     (by decide) (by decide) (by decide) (by decide)⟩

/-- C4: for an Active store, every successful `Read` returns a dataset
that contains neither a PendingTimestamp TLV nor a DelayTimer TLV,
whatever the (well-formed) persisted blob contained. -/
theorem read_active_strips_pending_metadata (keyRefs : Bool) (now : Nat)
    (s : LocalStore) (stored d : Dataset)
    (h1 : s.mType = .kActive)
    (h2 : s.settingsStored = some stored)
    (hwf : wfTags stored)
    (hok : Read keyRefs now s = .ok d) :
    getTlv Tlv.kPendingTimestamp d = none ∧
    getTlv Tlv.kDelayTimer d = none := by
  cases keyRefs with
  | false =>
    rw [Read_eval_no_keyrefs now h2] at hok
    simp only [h1] at hok
    injection hok with hok
    subst hok
    exact strip_both_of_wf hwf
  | true =>
    rcases he : EmplaceItsKeys s stored with _ | tlvs
    · simp [Read, h2, he] at hok
    · simp only [Read, h2, he, if_pos, h1] at hok
      injection hok with hok
      subst hok
      have hwft : wfTags tlvs := by
        unfold wfTags
        rw [map_tag_EmplaceItsKeys he]
        exact hwf
      exact strip_both_of_wf hwft

theorem read_active_strips_pending_metadata_witness :
    activeSample.mType = .kActive ∧
    activeSample.settingsStored = some [atSample, ptSample, dtSample] ∧
    wfTags [atSample, ptSample, dtSample] ∧
    Read false 3 activeSample = .ok [atSample] ∧
    (getTlv Tlv.kPendingTimestamp [atSample] = none ∧
     getTlv Tlv.kDelayTimer [atSample] = none) :=
  ⟨by decide, by decide, by decide, by decide,
   read_active_strips_pending_metadata false 3 activeSample
     [atSample, ptSample, dtSample] [atSample] (by decide) (by decide)
     (by decide) (by decide)⟩

/-- C3: with the key-refs feature disabled, saving a well-formed
non-empty dataset without secret TLVs that is valid for the store's role
(Active: no pending metadata; Pending: a canonical DelayTimer TLV) and
then reading immediately succeeds and returns exactly the saved TLV
content, for both roles. -/
theorem save_then_read_roundtrip (now : Nat) (s : LocalStore) (d : Dataset)
    (hne : getSize d ≠ 0)
    (hwf : wfTags d)
    (hnk : getTlv Tlv.kNetworkKey d = none)
    (hpk : getTlv Tlv.kPskc d = none)
    (hrole : (s.mType = .kActive ∧ getTlv Tlv.kPendingTimestamp d = none ∧
              getTlv Tlv.kDelayTimer d = none) ∨
             (s.mType = .kPending ∧ ∃ T, T < 2 ^ 32 ∧
              getTlv Tlv.kDelayTimer d
                = some ⟨Tlv.kDelayTimer, encodeU32 T⟩)) :
    (Save false true now s d).1 = .kErrorNone ∧
    Read false now (Save false true now s d).2 = .ok d := by
  have hsave : Save false true now s d
      = (.kErrorNone,
         finishSave now { s with settingsStored := some d, mSaved := true } d) := by
    unfold Save
    rw [if_neg hne]
    rfl
  rw [hsave]
  refine ⟨rfl, ?_⟩
  set s2 := finishSave now { s with settingsStored := some d, mSaved := true } d
    with hs2def
  have hss : s2.settingsStored = some d := (finishSave_fields now _ d).2.1
  have hmt : s2.mType = s.mType := (finishSave_fields now _ d).1
  have hup : s2.mUpdateTime = now := (finishSave_fields now _ d).2.2.1
  rw [Read_eval_no_keyrefs now hss]
  rcases hrole with ⟨ha, hp, hd⟩ | ⟨hp', T, hT, hdt⟩
  · rw [hmt, ha]
    dsimp only
    rw [removeTlv_of_getTlv_none hp, removeTlv_of_getTlv_none hd]
  · rw [hmt, hp']
    dsimp only
    rw [hdt]
    dsimp only
    rw [hup, sub32_self]
    have hdec : getDelayTimer ⟨Tlv.kDelayTimer, encodeU32 T⟩ = T := by
      simp [getDelayTimer, decodeU32_encodeU32 hT]
    rw [hdec]
    have hite : (if T > 0 then T - 0 else 0) = T := by split <;> omega
    rw [hite]
    exact congrArg ReadOutcome.ok (setTlvValue_of_value_eq hdt)

theorem save_then_read_roundtrip_witness :
    getSize [ptSample, dtSample] ≠ 0 ∧
    wfTags [ptSample, dtSample] ∧
    getTlv Tlv.kNetworkKey [ptSample, dtSample] = none ∧
    getTlv Tlv.kPskc [ptSample, dtSample] = none ∧
    pendingSample.mType = .kPending ∧
    ((Save false true 7 pendingSample [ptSample, dtSample]).1 = .kErrorNone ∧
     Read false 7 (Save false true 7 pendingSample [ptSample, dtSample]).2
       = .ok [ptSample, dtSample]) :=
  ⟨by decide, by decide, by decide, by decide, by decide,
   save_then_read_roundtrip 7 pendingSample [ptSample, dtSample] (by decide)
     (by decide) (by decide) (by decide)
     (Or.inr ⟨by decide, 5000, by decide, by decide⟩)⟩

theorem ne_nk_pk : Tlv.kNetworkKey ≠ Tlv.kPskc := by decide

theorem ne_pk_nk : Tlv.kPskc ≠ Tlv.kNetworkKey := by decide

theorem ne_nk_dt : Tlv.kNetworkKey ≠ Tlv.kDelayTimer := by decide

theorem ne_pk_dt : Tlv.kPskc ≠ Tlv.kDelayTimer := by decide

theorem ne_nk_pt : Tlv.kNetworkKey ≠ Tlv.kPendingTimestamp := by decide

theorem ne_pk_pt : Tlv.kPskc ≠ Tlv.kPendingTimestamp := by decide

theorem Save_eval_keyrefs {s : LocalStore} {d : Dataset} (now : Nat)
    (hne : getSize d ≠ 0) :
    Save true true now s d =
      (.kErrorNone,
       finishSave now
         { (StoreItsKeys (DestroyItsKeys s) d).1 with
           settingsStored := some (StoreItsKeys (DestroyItsKeys s) d).2,
           mSaved := true } d) := by
  unfold Save
  rw [if_neg hne]
  rfl

theorem StoreItsKeys_eval_both {s : LocalStore} {d : Dataset} {nkT pkT : Tlv}
    (hnk : getTlv Tlv.kNetworkKey d = some nkT)
    (hpk : getTlv Tlv.kPskc d = some pkT) :
    StoreItsKeys s d =
      ({ s with itsNetworkKey := some nkT.value, itsPskc := some pkT.value },
       setTlvValue Tlv.kPskc kZeroKey
         (setTlvValue Tlv.kNetworkKey kZeroKey d)) := by
  have hpk2 : getTlv Tlv.kPskc (setTlvValue Tlv.kNetworkKey kZeroKey d)
      = some pkT := by
    rw [getTlv_setTlvValue_ne ne_pk_nk]
    exact hpk
  simp only [StoreItsKeys, hnk, hpk2]

theorem EmplaceItsKeys_eval_both {s : LocalStore} {b : Dataset}
    {nk pk : List Nat} {t u : Tlv}
    (hk1 : s.itsNetworkKey = some nk) (hk2 : s.itsPskc = some pk)
    (hnk : getTlv Tlv.kNetworkKey b = some t)
    (hpk : getTlv Tlv.kPskc b = some u) :
    EmplaceItsKeys s b
      = some (setTlvValue Tlv.kPskc pk (setTlvValue Tlv.kNetworkKey nk b)) := by
  have hpk2 : getTlv Tlv.kPskc (setTlvValue Tlv.kNetworkKey nk b) = some u := by
    rw [getTlv_setTlvValue_ne ne_pk_nk]
    exact hpk
  simp only [EmplaceItsKeys, emplaceOne, hnk, hk1, hpk2, hk2]

theorem Read_eval_keyrefs {s : LocalStore} {stored tlvs : Dataset} (now : Nat)
    (h2 : s.settingsStored = some stored)
    (he : EmplaceItsKeys s stored = some tlvs) :
    Read true now s =
      (match s.mType with
       | .kActive =>
         .ok (removeTlv Tlv.kDelayTimer (removeTlv Tlv.kPendingTimestamp tlvs))
       | .kPending =>
         match getTlv Tlv.kDelayTimer tlvs with
         | none => .ok tlvs
         | some dt =>
           .ok (setTlvValue Tlv.kDelayTimer
             (encodeU32 (if getDelayTimer dt > sub32 now s.mUpdateTime
                then getDelayTimer dt - sub32 now s.mUpdateTime else 0))
             tlvs)) := by
  unfold Read
  simp only [h2]
  rw [he]
  rfl

theorem Save_keyrefs_state (now : Nat) (s : LocalStore) (d : Dataset)
    {nkT pkT : Tlv} (hne : getSize d ≠ 0)
    (hnk : getTlv Tlv.kNetworkKey d = some nkT)
    (hpk : getTlv Tlv.kPskc d = some pkT) :
    (Save true true now s d).1 = .kErrorNone ∧
    (Save true true now s d).2.settingsStored
      = some (setTlvValue Tlv.kPskc kZeroKey
               (setTlvValue Tlv.kNetworkKey kZeroKey d)) ∧
    (Save true true now s d).2.itsNetworkKey = some nkT.value ∧
    (Save true true now s d).2.itsPskc = some pkT.value ∧
    (Save true true now s d).2.mType = s.mType ∧
    (Save true true now s d).2.mUpdateTime = now := by
  have hsv := Save_eval_keyrefs (s := s) now hne
  rw [StoreItsKeys_eval_both hnk hpk] at hsv
  rw [hsv]
  exact ⟨rfl, (finishSave_fields now _ d).2.1,
         (finishSave_fields now _ d).2.2.2.2.1,
         (finishSave_fields now _ d).2.2.2.2.2,
         (finishSave_fields now _ d).1,
         (finishSave_fields now _ d).2.2.1⟩

theorem Read_keyrefs_roundtrip {s3 : LocalStore} {d : Dataset}
    {nkT pkT : Tlv} (now2 : Nat)
    (hnk : getTlv Tlv.kNetworkKey d = some nkT)
    (hpk : getTlv Tlv.kPskc d = some pkT)
    (hss : s3.settingsStored
      = some (setTlvValue Tlv.kPskc kZeroKey
               (setTlvValue Tlv.kNetworkKey kZeroKey d)))
    (hk1 : s3.itsNetworkKey = some nkT.value)
    (hk2 : s3.itsPskc = some pkT.value) :
    ∃ d2, Read true now2 s3 = .ok d2 ∧
      getTlv Tlv.kNetworkKey d2 = some nkT ∧
      getTlv Tlv.kPskc d2 = some pkT := by
  have hgb_nk : getTlv Tlv.kNetworkKey
      (setTlvValue Tlv.kPskc kZeroKey (setTlvValue Tlv.kNetworkKey kZeroKey d))
      = some { nkT with value := kZeroKey } := by
    rw [getTlv_setTlvValue_ne ne_nk_pk, getTlv_setTlvValue_self, hnk]
    rfl
  have hgb_pk : getTlv Tlv.kPskc
      (setTlvValue Tlv.kPskc kZeroKey (setTlvValue Tlv.kNetworkKey kZeroKey d))
      = some { pkT with value := kZeroKey } := by
    rw [getTlv_setTlvValue_self, getTlv_setTlvValue_ne ne_pk_nk, hpk]
    rfl
  have he := EmplaceItsKeys_eval_both hk1 hk2 hgb_nk hgb_pk
  have hd2_nk : getTlv Tlv.kNetworkKey
      (setTlvValue Tlv.kPskc pkT.value (setTlvValue Tlv.kNetworkKey nkT.value
        (setTlvValue Tlv.kPskc kZeroKey (setTlvValue Tlv.kNetworkKey kZeroKey d))))
      = some nkT := by
    rw [getTlv_setTlvValue_ne ne_nk_pk, getTlv_setTlvValue_self, hgb_nk]
    rfl
  have hd2_pk : getTlv Tlv.kPskc
      (setTlvValue Tlv.kPskc pkT.value (setTlvValue Tlv.kNetworkKey nkT.value
        (setTlvValue Tlv.kPskc kZeroKey (setTlvValue Tlv.kNetworkKey kZeroKey d))))
      = some pkT := by
    rw [getTlv_setTlvValue_self, getTlv_setTlvValue_ne ne_pk_nk, hgb_pk]
    rfl
  rw [Read_eval_keyrefs now2 hss he]
  rcases hmt : s3.mType with _ | _
  · exact ⟨_, rfl, by rw [getTlv_removeTlv_ne ne_nk_dt,
      getTlv_removeTlv_ne ne_nk_pt]; exact hd2_nk,
      by rw [getTlv_removeTlv_ne ne_pk_dt,
        getTlv_removeTlv_ne ne_pk_pt]; exact hd2_pk⟩
  · rcases hdt : getTlv Tlv.kDelayTimer
        (setTlvValue Tlv.kPskc pkT.value (setTlvValue Tlv.kNetworkKey nkT.value
          (setTlvValue Tlv.kPskc kZeroKey
            (setTlvValue Tlv.kNetworkKey kZeroKey d)))) with _ | dt
    · exact ⟨_, rfl, hd2_nk, hd2_pk⟩
    · exact ⟨_, rfl, by rw [getTlv_setTlvValue_ne ne_nk_dt]; exact hd2_nk,
        by rw [getTlv_setTlvValue_ne ne_pk_dt]; exact hd2_pk⟩

/-- C2: with secure-key externalization enabled, the blob handed to the
settings store by `Save` carries the NetworkKey and Pskc TLV value slots
zeroed (the original secret bytes are not persisted), and a subsequent
`Read` reconstructs both original secret values exactly by exporting
them from the role's two reserved key-store references. -/
theorem save_read_secret_redaction (now now2 : Nat) (s : LocalStore)
    (d : Dataset) (nkT pkT : Tlv)
    (hwf : wfTags d)
    (hnk : getTlv Tlv.kNetworkKey d = some nkT)
    (hpk : getTlv Tlv.kPskc d = some pkT) :
    (Save true true now s d).1 = .kErrorNone ∧
    (∃ b, (Save true true now s d).2.settingsStored = some b ∧
      (∀ u ∈ b, u.tag = Tlv.kNetworkKey → u.value = kZeroKey) ∧
      (∀ u ∈ b, u.tag = Tlv.kPskc → u.value = kZeroKey)) ∧
    (∃ d2, Read true now2 (Save true true now s d).2 = .ok d2 ∧
      getTlv Tlv.kNetworkKey d2 = some nkT ∧
      getTlv Tlv.kPskc d2 = some pkT) := by
  have hne : getSize d ≠ 0 := by
    intro h0
    rw [getSize_eq_zero_iff] at h0
    subst h0
    simp [getTlv] at hnk
  obtain ⟨he0, hss, hk1, hk2, hmt, hup⟩ :=
    Save_keyrefs_state now s d hne hnk hpk
  refine ⟨he0, ⟨_, hss, ?_, ?_⟩,
    Read_keyrefs_roundtrip now2 hnk hpk hss hk1 hk2⟩
  · intro u hu ht
    have hune : u.tag ≠ Tlv.kPskc := by
      rw [ht]
      exact ne_nk_pk
    exact value_of_mem_setTlvValue hwf (mem_of_mem_setTlvValue_ne hu hune) ht
  · intro u hu ht
    exact value_of_mem_setTlvValue (wfTags_setTlvValue _ _ hwf) hu ht

theorem save_read_secret_redaction_witness :
    wfTags [nkSample, pkSample, atSample] ∧
    getTlv Tlv.kNetworkKey [nkSample, pkSample, atSample] = some nkSample ∧
    getTlv Tlv.kPskc [nkSample, pkSample, atSample] = some pkSample ∧
    ((Save true true 7 emptySample [nkSample, pkSample, atSample]).1
        = .kErrorNone ∧
     (∃ b, (Save true true 7 emptySample
              [nkSample, pkSample, atSample]).2.settingsStored = some b ∧
        (∀ u ∈ b, u.tag = Tlv.kNetworkKey → u.value = kZeroKey) ∧
        (∀ u ∈ b, u.tag = Tlv.kPskc → u.value = kZeroKey)) ∧
     (∃ d2, Read true 9 (Save true true 7 emptySample
              [nkSample, pkSample, atSample]).2 = .ok d2 ∧
        getTlv Tlv.kNetworkKey d2 = some nkSample ∧
        getTlv Tlv.kPskc d2 = some pkSample)) :=
  ⟨by decide, by decide, by decide,
   save_read_secret_redaction 7 9 emptySample [nkSample, pkSample, atSample]
     nkSample pkSample (by decide) (by decide) (by decide)⟩

/-- C10: `Save` performs the secret zeroing on an internal copy of the
caller's dataset - the persisted blob is `StoreItsKeys` applied to that
copy - while the cached timestamp fields are refreshed from the caller's
original, pre-redaction dataset (the argument itself, a `const`
reference, is never modified). -/
theorem save_redacts_copy_caches_original (now : Nat) (s : LocalStore)
    (d : Dataset) (hne : getSize d ≠ 0) :
    (Save true true now s d).2.settingsStored
      = some (StoreItsKeys (DestroyItsKeys s) d).2 ∧
    (Save true true now s d).2.mTimestampPresent
      = (getTimestamp s.mType d).isSome ∧
    (∀ ts, getTimestamp s.mType d = some ts →
      (Save true true now s d).2.mTimestamp = ts) := by
  have hsv := Save_eval_keyrefs (s := s) now hne
  rw [hsv]
  have hRmt : ({ (StoreItsKeys (DestroyItsKeys s) d).1 with
      settingsStored := some (StoreItsKeys (DestroyItsKeys s) d).2,
      mSaved := true } : LocalStore).mType = s.mType :=
    (StoreItsKeys_fst_fields (DestroyItsKeys s) d).1
  refine ⟨(finishSave_fields now _ d).2.1, ?_, ?_⟩
  · rw [(finishSave_timestamp now _ d).1, hRmt]
  · intro ts hts
    refine (finishSave_timestamp now _ d).2 ts ?_
    rw [hRmt]
    exact hts

theorem save_redacts_copy_caches_original_witness :
    getSize [nkSample, atSample] ≠ 0 ∧
    ((Save true true 7 emptySample [nkSample, atSample]).2.settingsStored
       = some (StoreItsKeys (DestroyItsKeys emptySample)
                 [nkSample, atSample]).2 ∧
     (Save true true 7 emptySample [nkSample, atSample]).2.mTimestampPresent
       = (getTimestamp emptySample.mType [nkSample, atSample]).isSome ∧
     (∀ ts, getTimestamp emptySample.mType [nkSample, atSample] = some ts →
       (Save true true 7 emptySample [nkSample, atSample]).2.mTimestamp
         = ts)) :=
  ⟨by decide,
   save_redacts_copy_caches_original 7 emptySample [nkSample, atSample]
     (by decide)⟩
